import Mathlib

/-!
Verification of the templating-controller reconciliation core.

This file gives a shallow embedding of the data model and the operations of
the crossplane templating-controller: the priority-ordered child deleter
(`APIOrderedDeleter.Delete` and `deleteIfControllable` from
`pkg/templating/api.go`), the reconciler state machine
(`Reconciler.Reconcile`), the condition upsert (`SetConditions`), and the
owner-reference patcher (`OwnerReferenceAdder.Patch`), together with proofs
of the behavioural claims about them.

Kubernetes API machinery that the code calls into (client get/delete
outcomes, the external templating engine, the finalizer) is modelled as
explicit oracle functions supplied to each operation, so every definition
stays executable and each run of an operation is a pure function of those
oracles.
-/

namespace TemplatingController

/-- GroupVersionKind identity of a Kubernetes object. -/
structure GVK where
  group : String
  version : String
  kind : String
deriving DecidableEq, Repr

/-- Go `schema.GroupVersionKind.String()`: `group + "/" + version + ", Kind=" + kind`. -/
def GVK.goString (g : GVK) : String :=
  g.group ++ "/" ++ g.version ++ ", Kind=" ++ g.kind

/-- Go `schema.GroupVersion.String()`: `version` when the group is empty,
`group + "/" + version` otherwise. Used for owner-reference apiVersion fields. -/
def GVK.apiVersion (g : GVK) : String :=
  if g.group = "" then g.version else g.group ++ "/" ++ g.version

/-- `metav1.OwnerReference`: a back-link from a child to an owning object. -/
structure OwnerRef where
  apiVersion : String
  kind : String
  name : String
  uid : String
  controller : Bool
  blockOwnerDeletion : Bool
deriving DecidableEq, Repr

/-- A `v1alpha1.Condition` stored in a resource status: type, status
(`True` / `False` / `Unknown`), reason, message and last transition time. -/
structure Condition where
  ctype : String
  status : String
  reason : String
  message : String
  lastTransitionTime : Nat
deriving DecidableEq, Repr

/-- A child resource as seen by the patchers and the deleter: identity plus
labels, annotations and owner references. Association lists model the Go
string-to-string maps. -/
structure ChildResource where
  gvk : GVK
  name : String
  ns : String
  annots : List (String × String)
  labels : List (String × String)
  ownerRefs : List OwnerRef
deriving DecidableEq, Repr

/-- The parent resource driving a reconcile: identity, labels/annotations,
deletion timestamp, finalizers and status conditions. -/
structure ParentResource where
  gvk : GVK
  name : String
  ns : String
  uid : String
  labels : List (String × String)
  annots : List (String × String)
  deletionTimestamp : Option Nat
  finalizers : List String
  conditions : List Condition
deriving DecidableEq, Repr

/-- `types.NamespacedName`, the key used for client gets and deletes. -/
structure NamespacedName where
  name : String
  ns : String
deriving DecidableEq, Repr

/-- The namespaced name of a child, as built in `APIOrderedDeleter.Delete`. -/
def ChildResource.nn (res : ChildResource) : NamespacedName :=
  { name := res.name, ns := res.ns }

/-- Go map lookup on an association list (`m[k]` with the `ok` flag). -/
def lookupStr (m : List (String × String)) (k : String) : Option String :=
  (m.find? (fun p => p.fst == k)).map Prod.snd

/-! ### Go integer parsing (`strconv.ParseInt(val, 10, 64)`) -/

/-- Value of one decimal digit character, `none` for any other character. -/
def decDigit? (c : Char) : Option Nat :=
  if '0' ≤ c ∧ c ≤ '9' then some (c.toNat - '0'.toNat) else none

/-- Fold step accumulating a decimal number, failing on a non-digit. -/
def decAccum (acc : Option Nat) (c : Char) : Option Nat :=
  match acc with
  | none => none
  | some n => (decDigit? c).map (fun d => n * 10 + d)

/-- Parse a non-empty all-digit character list as a natural number. -/
def decDigits? (cs : List Char) : Option Nat :=
  match cs with
  | [] => none
  | _ => cs.foldl decAccum (some 0)

/-- Smallest value of Go `int64` (also `int` on 64-bit platforms). -/
def minInt64 : Int := -(2 ^ 63)

/-- Largest value of Go `int64`. -/
def maxInt64 : Int := 2 ^ 63 - 1

/-- Go `strconv.ParseInt(s, 10, 64)`: optional sign, one or more decimal
digits, result within the `int64` range; every other input is an error
(`none`). `strconv.Atoi` used by the older deleter variant is
`ParseInt(s, 10, 0)` with 64-bit `int`, hence the same function. -/
def goParseInt64 (s : String) : Option Int :=
  let cs := s.toList
  let signed : Bool × List Char :=
    match cs with
    | '+' :: rest => (false, rest)
    | '-' :: rest => (true, rest)
    | _ => (false, cs)
  match decDigits? signed.snd with
  | none => none
  | some n =>
    let v : Int := if signed.fst then -(n : Int) else (n : Int)
    if minInt64 ≤ v ∧ v ≤ maxInt64 then some v else none

/-! ### Annotations used as configuration -/

/-- Annotation key carrying a child's deletion priority. -/
def DeletionPriorityAnnotationKey : String :=
  "templatestacks.crossplane.io/deletion-priority"

/-- Default value used when the deletion-priority key is absent. -/
def DeletionPriorityAnnotationZeroValue : String := "0"

/-- The raw priority string of a child: the deletion-priority value if the
key is present, the zero default otherwise (first lines of the loop in
`APIOrderedDeleter.Delete`). -/
def priorityAnnot (res : ChildResource) : String :=
  match lookupStr res.annots DeletionPriorityAnnotationKey with
  | some val => val
  | none => DeletionPriorityAnnotationZeroValue

/-- The parsed deletion priority of a child; `none` is the fatal
`cannot convert deletion priority into integer` case. -/
def priorityOf (res : ChildResource) : Option Int :=
  goParseInt64 (priorityAnnot res)

/-! ### Store client model -/

/-- Outcome of `kube.Get` for one key: the stored object, the not-found
sentinel, or any other error. -/
inductive GetOutcome where
  | found (obj : ChildResource)
  | notFound
  | failure
deriving DecidableEq, Repr

/-- Outcome of `kube.Delete` for one key. -/
inductive DelOutcome where
  | ok
  | notFound
  | failure
deriving DecidableEq, Repr

/-- The store client as the deleter sees it: a fixed response for each
get and each delete of a namespaced name, modelling one pass (the code
issues every get before the first delete, so one snapshot per call site
is faithful for a single `Delete` invocation). -/
structure KubeClient where
  get : NamespacedName → GetOutcome
  delete : NamespacedName → DelOutcome

/-- Error kinds surfaced by `APIOrderedDeleter.Delete`, one per wrapped
error string in the source. -/
inductive DeleteErr where
  | priorityToInt
  | getChildResource
  | notController
  | deleteChildResource
deriving DecidableEq, Repr

/-! ### crossplane-runtime meta helpers -/

/-- `metav1.GetControllerOf`: the first owner reference flagged as
controller, if any. -/
def getControllerOf (res : ChildResource) : Option OwnerRef :=
  res.ownerRefs.find? (fun r => r.controller)

/-- `metav1.IsControlledBy`: the controller reference exists and its UID is
the candidate owner's UID. -/
def isControlledBy (res : ChildResource) (cr : ParentResource) : Bool :=
  match getControllerOf res with
  | some ref => ref.uid == cr.uid
  | none => false

/-- `meta.AddOwnerReference`: replace the first stored reference with the
same UID, or append the new reference when no UID matches. -/
def addOwnerReference (o : ChildResource) (ref : OwnerRef) : ChildResource :=
  if o.ownerRefs.any (fun r => r.uid == ref.uid) then
    { o with ownerRefs := replaceFirstByUid o.ownerRefs ref }
  else
    { o with ownerRefs := o.ownerRefs ++ [ref] }
where
  /-- Replace the first owner reference whose UID matches. -/
  replaceFirstByUid : List OwnerRef → OwnerRef → List OwnerRef
    | [], _ => []
    | r :: rest, ref =>
      if r.uid == ref.uid then ref :: rest else r :: replaceFirstByUid rest ref

/-- `meta.AsController(meta.ReferenceTo(cr, cr.GroupVersionKind()))` with
`BlockOwnerDeletion` set to true, as built in `OwnerReferenceAdder.Patch`
of `pkg/templating/api.go`. -/
def controllerRefTo (cr : ParentResource) : OwnerRef :=
  { apiVersion := cr.gvk.apiVersion
    kind := cr.gvk.kind
    name := cr.name
    uid := cr.uid
    controller := true
    blockOwnerDeletion := true }

/-! ### OwnerReferenceAdder patcher -/

/-- `OwnerReferenceAdder.Patch` from `pkg/templating/api.go` (the current
variant): builds the controller reference to the parent and adds it to
every child in the list; the loop body has no provider check. -/
def OwnerReferenceAdder.Patch (cr : ParentResource) (list : List ChildResource) :
    List ChildResource :=
  let ref := controllerRefTo cr
  list.map (fun o => addOwnerReference o ref)

/-- ASCII lower-casing of one character, the fragment of Go
`strings.EqualFold` folding exercised by `isProvider` (its arguments are
ASCII kind names). -/
def asciiLowerChar (c : Char) : Char :=
  if 'A' ≤ c ∧ c ≤ 'Z' then Char.ofNat (c.toNat + 32) else c

/-- Go `strings.EqualFold` on ASCII strings. -/
def eqFold (a b : String) : Bool :=
  a.toList.map asciiLowerChar == b.toList.map asciiLowerChar

/-- Go `strings.HasSuffix`, over the character sequences. -/
def hasSuffix (s suf : String) : Bool :=
  decide (suf.toList.length ≤ s.toList.length) &&
    s.toList.drop (s.toList.length - suf.toList.length) == suf.toList

/-- `isProvider` from the older `pkg/templating` variant: group has suffix
`crossplane.io` and kind case-insensitively equals `provider`. -/
def legacyIsProvider (o : ChildResource) : Bool :=
  hasSuffix o.gvk.group "crossplane.io" && eqFold o.gvk.kind "provider"

/-- `meta.AsOwner(meta.ReferenceTo(cr, cr.GroupVersionKind()))` with
`BlockOwnerDeletion` true — the non-controller reference of the older
`OwnerReferenceAdder.Patch` variant. -/
def ownerRefTo (cr : ParentResource) : OwnerRef :=
  { apiVersion := cr.gvk.apiVersion
    kind := cr.gvk.kind
    name := cr.name
    uid := cr.uid
    controller := false
    blockOwnerDeletion := true }

/-- `OwnerReferenceAdder.Patch` from the older `pkg/templating` variant:
skips children recognized as providers, adds the owner reference to the
rest. -/
def legacyOwnerReferenceAdderPatch (cr : ParentResource)
    (list : List ChildResource) : List ChildResource :=
  let ref := ownerRefTo cr
  list.map (fun o => if legacyIsProvider o then o else addOwnerReference o ref)

/-! ### APIOrderedDeleter -/

/-- `APIOrderedDeleter` holds the store client it gets and deletes through. -/
structure APIOrderedDeleter where
  kube : KubeClient

/-- The scan loop of `APIOrderedDeleter.Delete`: for each child read and
parse its priority (absent defaults to `"0"`, unparsable is fatal),
re-fetch it from the store (non-not-found failure is fatal, not-found is
skipped), then keep the running highest priority `hp` and the batch `del`
of fetched objects at that priority: a strictly higher priority resets the
batch, an equal priority appends, a lower one is skipped. -/
def deleteScan (kube : KubeClient) :
    List ChildResource → Int → List ChildResource →
    Except DeleteErr (List ChildResource)
  | [], _, del => Except.ok del
  | res :: rest, hp, del =>
    match priorityOf res with
    | none => Except.error DeleteErr.priorityToInt
    | some p =>
      match kube.get res.nn with
      | GetOutcome.failure => Except.error DeleteErr.getChildResource
      | GetOutcome.notFound => deleteScan kube rest hp del
      | GetOutcome.found cur =>
        if hp < p then deleteScan kube rest p [cur]
        else if p = hp then deleteScan kube rest hp (del ++ [cur])
        else deleteScan kube rest hp del

/-- `APIOrderedDeleter.deleteIfControllable`: error out with the
`not controller` message — issuing no delete call — when the object has a
controller other than the given parent; otherwise issue the delete,
ignoring not-found and wrapping any other failure. The boolean records
whether a delete call was issued. -/
def deleteIfControllable (kube : KubeClient) (obj : ChildResource)
    (cr : ParentResource) : Bool × Option DeleteErr :=
  if (getControllerOf obj).isSome && !(isControlledBy obj cr) then
    (false, some DeleteErr.notController)
  else
    match kube.delete obj.nn with
    | DelOutcome.failure => (true, some DeleteErr.deleteChildResource)
    | _ => (true, none)

/-- The deletion loop of `APIOrderedDeleter.Delete`: run
`deleteIfControllable` over the batch in order, stopping at the first
error. Returns the delete calls issued and the error, if any. -/
def deleteBatch (kube : KubeClient) (cr : ParentResource) :
    List ChildResource → List NamespacedName × Option DeleteErr
  | [] => ([], none)
  | res :: rest =>
    match deleteIfControllable kube res cr with
    | (issued, some e) => (if issued then [res.nn] else [], some e)
    | (_, none) =>
      let next := deleteBatch kube cr rest
      (res.nn :: next.fst, next.snd)

/-- `APIOrderedDeleter.Delete` from `pkg/templating/api.go`: scan the whole
list first (starting from the smallest `int64` as the running highest
priority and an empty batch), then delete the selected batch; a scan error
aborts before any delete call with a nil result. Returns the delete calls
issued alongside the Go `([]resource.ChildResource, error)` pair, where a
returned error always comes with a nil list. -/
def APIOrderedDeleter.Delete (d : APIOrderedDeleter) (cr : ParentResource)
    (list : List ChildResource) :
    List NamespacedName × Except DeleteErr (List ChildResource) :=
  match deleteScan d.kube list minInt64 [] with
  | Except.error e => ([], Except.error e)
  | Except.ok del =>
    match deleteBatch d.kube cr del with
    | (calls, some e) => (calls, Except.error e)
    | (calls, none) => (calls, Except.ok del)

/-! ### Spec-side description of the deletion batch -/

/-- The still-existing children paired with their parsed input priorities:
children whose re-fetch reports not-found are dropped; the stored object
accompanies the priority read from the input annotations. -/
def existingPriorities (kube : KubeClient) (list : List ChildResource) :
    List (Int × ChildResource) :=
  list.filterMap (fun res =>
    match priorityOf res, kube.get res.nn with
    | some p, GetOutcome.found cur => some (p, cur)
    | _, _ => none)

/-- Modelled from the spec: "Compute the maximum priority value `hp` among
remaining (still-existing) children. Select the batch `del` = all existing
children whose priority equals `hp`" — a child without the
deletion-priority key counts as priority 0, children already absent from
the store contribute nothing, and all ties at the maximum are selected. -/
def maxPriorityBatch (kube : KubeClient) (list : List ChildResource) :
    List ChildResource :=
  let ex := existingPriorities kube list
  let hp := (ex.map Prod.fst).foldl max minInt64
  (ex.filter (fun pc => decide (pc.fst = hp))).map Prod.snd

/-! ### Status conditions (`pkg/resource` SetConditions) -/

/-- Modelled from the spec: `Condition.Equal` of crossplane-runtime, which
is a dependency and not part of this repository's sources. Per the spec
("setting a condition with identical type/status/reason/message (ignoring
timestamp) to an existing one is a no-op") and the doc comment of
`SetConditions` in the source ("This is a no-op if all supplied conditions
are identical, ignoring the last transition time, to those already set"),
it compares type, status, reason and message and ignores
`lastTransitionTime`. -/
def conditionEqual (a b : Condition) : Bool :=
  a.ctype == b.ctype && a.status == b.status &&
    a.reason == b.reason && a.message == b.message

/-- The inner loop of `SetConditions` for one supplied condition: walk the
stored list; entries of a different type pass through; an entry of the same
type marks the condition as existing, and is overwritten in place unless it
is `Equal` to the supplied one. Returns the updated list and the final
`exists` flag. -/
def setConditionLoop (newC : Condition) :
    List Condition → Bool → List Condition × Bool
  | [], ex => ([], ex)
  | c :: rest, ex =>
    if c.ctype ≠ newC.ctype then
      let next := setConditionLoop newC rest ex
      (c :: next.fst, next.snd)
    else if conditionEqual c newC then
      let next := setConditionLoop newC rest true
      (c :: next.fst, next.snd)
    else
      let next := setConditionLoop newC rest true
      (newC :: next.fst, next.snd)

/-- One supplied condition of `SetConditions`: run the loop over the stored
list and append the condition at the end when no entry of its type was
found. The JSON marshal/unmarshal round-trip of the unstructured status in
the source is modelled as the identity on the condition list. -/
def setCondition (conds : List Condition) (newC : Condition) : List Condition :=
  match setConditionLoop newC conds false with
  | (l, true) => l
  | (l, false) => l ++ [newC]

/-- `SetConditions` of `pkg/resource`: fold the supplied conditions over
the stored list, one `setCondition` pass each. -/
def SetConditions (conds : List Condition) (newConds : List Condition) :
    List Condition :=
  newConds.foldl setCondition conds

/-! ### Reconciler -/

/-- `tinyWait = 1 * time.Second`, in nanoseconds. -/
def tinyWait : Nat := 1000000000

/-- `defaultShortWait = 30 * time.Second`, in nanoseconds. -/
def defaultShortWait : Nat := 30000000000

/-- `defaultLongWait = 1 * time.Minute`, in nanoseconds. -/
def defaultLongWait : Nat := 60000000000

/-- Error and message strings of the reconciler. -/
def errUpdateResourceStatus : String :=
  "could not update status of the parent resource"

/-- Wrap message for a failed parent fetch. -/
def errGetResource : String := "could not get the parent resource"

/-- Wrap message for a failed templating run. -/
def errTemplatingOperation : String := "templating operation failed"

/-- Wrap message for a failed patcher chain. -/
def errChildResourcePatchers : String := "child resource patchers failed"

/-- Wrap message for a failed deleter pass. -/
def errDeleter : String := "cannot run deleter"

/-- Wrap message for a failed finalizer addition. -/
def errAddFinalizer : String := "cannot add finalizer to parent resource"

/-- Wrap message for a failed finalizer removal. -/
def errRemoveFinalizer : String := "cannot remove finalizer from parent resource"

/-- Wrap message prefix for a failed apply. -/
def errApply : String := "apply failed"

/-- Success message while children are still being deleted. -/
def msgWaitingForDeletion : String := "waiting for deletion of child resources"

/-- `errors.Wrap(err, msg)` rendered as a string: `msg ++ ": " ++ err`. -/
def wrap (msg e : String) : String := msg ++ ": " ++ e

/-- The condition type written by the reconciler (`v1alpha1.TypeSynced`). -/
def TypeSynced : String := "Synced"

/-- `v1alpha1.ReasonReconcileSuccess` (value pinned by `meta_test.go`). -/
def ReasonReconcileSuccess : String := "Successfully reconciled resource"

/-- `v1alpha1.ReasonReconcileError` of crossplane-runtime; the literal value
is irrelevant to the verified claims, which constrain status and message. -/
def ReasonReconcileError : String :=
  "Encountered an error during resource reconciliation"

/-- `v1alpha1.ReconcileSuccess()`: a True `Synced` condition stamped with
the current time. -/
def reconcileSuccess (now : Nat) : Condition :=
  { ctype := TypeSynced, status := "True", reason := ReasonReconcileSuccess
    message := "", lastTransitionTime := now }

/-- `v1alpha1.ReconcileError(err)`: a False `Synced` condition carrying the
error text. -/
def reconcileError (now : Nat) (msg : String) : Condition :=
  { ctype := TypeSynced, status := "False", reason := ReasonReconcileError
    message := msg, lastTransitionTime := now }

/-- `Condition.WithMessage`. -/
def Condition.withMessage (c : Condition) (m : String) : Condition :=
  { c with message := m }

/-- `ctrl.Result`: whether to requeue immediately and the requeue delay in
nanoseconds (`reconcile.Result{Requeue: false}` is `⟨false, 0⟩`). -/
structure CtrlResult where
  requeue : Bool
  requeueAfter : Nat
deriving DecidableEq, Repr

/-- Outcome of `Reconciler.Reconcile` fetching the parent. -/
inductive GetParentOutcome where
  | ok (cr : ParentResource)
  | notFound
  | failure (msg : String)

/-- Outcome of `finalizer.RemoveFinalizer`. -/
inductive RemoveFinalizerOutcome where
  | ok
  | notFound
  | failure (msg : String)
deriving DecidableEq, Repr

/-- The collaborators of one `Reconcile` invocation, as oracle outcomes:
the parent fetch, the templating engine, the patcher chain, the child
deleter, the finalizer operations, the per-child apply, the status
subresource update, and the clock used for condition timestamps. -/
structure ReconcilerEnv where
  getParent : GetParentOutcome
  run : ParentResource → Except String (List ChildResource)
  patchChain : ParentResource → List ChildResource → Except String (List ChildResource)
  deleter : List ChildResource → Except String (List ChildResource)
  removeFinalizer : RemoveFinalizerOutcome
  addFinalizer : Option String
  applyChild : ChildResource → Option String
  statusUpdate : Option String
  now : Nat

/-- The reconciler's configurable waits (`shortWait`, `longWait`). -/
structure Reconciler where
  shortWait : Nat
  longWait : Nat

/-- What one `Reconcile` invocation produced: the `ctrl.Result`, the
returned error text, the condition passed to `resource.SetConditions` on
the taken branch (none on the branches that set no condition), and the
children on which `Apply` was attempted, in order. -/
structure ReconcileOutcome where
  result : CtrlResult
  retErr : Option String
  condSet : Option Condition
  applied : List ChildResource
deriving DecidableEq, Repr

/-- The error returned by a branch that wrote status:
`errors.Wrap(r.kube.Status().Update(ctx, cr), errUpdateResourceStatus)`. -/
def statusReturnErr (env : ReconcilerEnv) : Option String :=
  env.statusUpdate.map (wrap errUpdateResourceStatus)

/-- The apply loop: attempt each child in order, stopping at the first
failure. Returns the attempted prefix and the failing child with its
error, if any. -/
def applyAll (f : ChildResource → Option String) :
    List ChildResource → List ChildResource × Option (ChildResource × String)
  | [] => ([], none)
  | o :: rest =>
    match f o with
    | some e => ([o], some (o, e))
    | none =>
      let next := applyAll f rest
      (o :: next.fst, next.snd)

/-- The condition message for a failed apply:
`errors.Wrap(err, fmt.Sprintf("%s: %s/%s of type %s", errApply, name, namespace, gvk))`. -/
def applyFailMessage (o : ChildResource) (e : String) : String :=
  wrap (errApply ++ ": " ++ o.name ++ "/" ++ o.ns ++ " of type " ++ o.gvk.goString) e

/-- `Reconciler.Reconcile` from `pkg/templating`: fetch the parent (silent
terminal on not-found), run the engine, run the patcher chain; when the
parent was deleted, run the deleter and either wait on a non-empty batch
(`tinyWait`) or remove the finalizer and end terminally; otherwise add the
finalizer and apply every child in order, short-circuiting on the first
failure. Every condition-setting branch returns the wrapped status-update
error. -/
def Reconciler.Reconcile (r : Reconciler) (env : ReconcilerEnv) :
    ReconcileOutcome :=
  match env.getParent with
  | GetParentOutcome.notFound =>
    { result := ⟨false, 0⟩, retErr := none, condSet := none, applied := [] }
  | GetParentOutcome.failure e =>
    { result := ⟨false, 0⟩, retErr := some (wrap errGetResource e)
      condSet := none, applied := [] }
  | GetParentOutcome.ok cr =>
    match env.run cr with
    | Except.error e =>
      { result := ⟨false, r.shortWait⟩, retErr := statusReturnErr env
        condSet := some (reconcileError env.now (wrap errTemplatingOperation e))
        applied := [] }
    | Except.ok rendered =>
      match env.patchChain cr rendered with
      | Except.error e =>
        { result := ⟨false, r.shortWait⟩, retErr := statusReturnErr env
          condSet := some (reconcileError env.now (wrap errChildResourcePatchers e))
          applied := [] }
      | Except.ok childResources =>
        if cr.deletionTimestamp.isSome then
          match env.deleter childResources with
          | Except.error e =>
            { result := ⟨false, r.shortWait⟩, retErr := statusReturnErr env
              condSet := some (reconcileError env.now (wrap errDeleter e))
              applied := [] }
          | Except.ok deleting =>
            if deleting.length > 0 then
              { result := ⟨false, tinyWait⟩, retErr := statusReturnErr env
                condSet := some ((reconcileSuccess env.now).withMessage msgWaitingForDeletion)
                applied := [] }
            else
              match env.removeFinalizer with
              | RemoveFinalizerOutcome.failure e =>
                { result := ⟨false, r.shortWait⟩, retErr := statusReturnErr env
                  condSet := some (reconcileError env.now (wrap errRemoveFinalizer e))
                  applied := [] }
              | _ =>
                { result := ⟨false, 0⟩, retErr := none, condSet := none
                  applied := [] }
        else
          match env.addFinalizer with
          | some e =>
            { result := ⟨false, r.shortWait⟩, retErr := statusReturnErr env
              condSet := some (reconcileError env.now (wrap errAddFinalizer e))
              applied := [] }
          | none =>
            match applyAll env.applyChild childResources with
            | (attempted, some oe) =>
              { result := ⟨false, r.shortWait⟩, retErr := statusReturnErr env
                condSet := some (reconcileError env.now (applyFailMessage oe.fst oe.snd))
                applied := attempted }
            | (attempted, none) =>
              { result := ⟨false, r.longWait⟩, retErr := statusReturnErr env
                condSet := some (reconcileSuccess env.now)
                applied := attempted }

/-! ### Concrete fixtures used by the witnesses -/

/-- Example GVK for concrete runs. -/
def exGVK : GVK := ⟨"example.org", "v1", "Widget"⟩

/-- Example child with a given name and annotations. -/
def exChild (nm : String) (annots : List (String × String)) : ChildResource :=
  { gvk := exGVK, name := nm, ns := "default", annots := annots
    labels := [], ownerRefs := [] }

/-- Example parent resource. -/
def exParent : ParentResource :=
  { gvk := ⟨"example.org", "v1", "Parent"⟩, name := "par", ns := "default"
    uid := "uid-parent", labels := [], annots := [], deletionTimestamp := none
    finalizers := [], conditions := [] }

/-- Example parent with a deletion timestamp set. -/
def exParentDeleting : ParentResource := { exParent with deletionTimestamp := some 5 }

/-- Example store: the child named `gone` is absent, everything else is
found with empty annotations; deletes succeed. -/
def exKube : KubeClient :=
  { get := fun nn =>
      if nn.name = "gone" then GetOutcome.notFound
      else GetOutcome.found (exChild nn.name [])
    delete := fun _ => DelOutcome.ok }

/-- Example child list with priorities 99, 49, 99 (absent child), default 0,
-1 and a tie 99. -/
def exList : List ChildResource :=
  [ exChild "a" [(DeletionPriorityAnnotationKey, "99")]
  , exChild "b" [(DeletionPriorityAnnotationKey, "49")]
  , exChild "gone" [(DeletionPriorityAnnotationKey, "99")]
  , exChild "c" []
  , exChild "d" [(DeletionPriorityAnnotationKey, "-1")]
  , exChild "e" [(DeletionPriorityAnnotationKey, "99")] ]

/-- Example reconcile collaborators where every stage succeeds trivially. -/
def exEnvBase : ReconcilerEnv :=
  { getParent := GetParentOutcome.ok exParent
    run := fun _ => Except.ok []
    patchChain := fun _ cs => Except.ok cs
    deleter := fun _ => Except.ok []
    removeFinalizer := RemoveFinalizerOutcome.ok
    addFinalizer := none
    applyChild := fun _ => none
    statusUpdate := none
    now := 7 }

/-- Example environment for a deleting parent whose deleter reports `ds`. -/
def exEnvDeleting (ds : List ChildResource) : ReconcilerEnv :=
  { exEnvBase with
    getParent := GetParentOutcome.ok exParentDeleting
    deleter := fun _ => Except.ok ds }

/-- Example environment where applying the child named `bad` fails. -/
def exEnvApplyFail : ReconcilerEnv :=
  { exEnvBase with
    patchChain := fun _ _ =>
      Except.ok [exChild "ok1" [], exChild "bad" [], exChild "later" []]
    applyChild := fun o => if o.name = "bad" then some "boom" else none }

/-- Example environment where every apply succeeds. -/
def exEnvApplyOk : ReconcilerEnv :=
  { exEnvBase with
    patchChain := fun _ _ => Except.ok [exChild "x" [], exChild "y" []] }

/-! ### Proof-side views of the deleter scan -/

/-- The running highest priority after scanning a list, starting from
`hp0`: the fold of `max` over the priorities of the still-existing
children. -/
def scanLevel (kube : KubeClient) (list : List ChildResource) (hp0 : Int) : Int :=
  ((existingPriorities kube list).map Prod.fst).foldl max hp0

/-- The still-existing children whose priority is exactly `hp`. -/
def levelBatch (kube : KubeClient) (list : List ChildResource) (hp : Int) :
    List ChildResource :=
  ((existingPriorities kube list).filter (fun pc => decide (pc.fst = hp))).map Prod.snd

/-! ### Lemmas about the ordered deleter -/

theorem maxPriorityBatch_eq_levelBatch (kube : KubeClient) (list : List ChildResource) :
    maxPriorityBatch kube list = levelBatch kube list (scanLevel kube list minInt64) := rfl

theorem le_foldl_max (l : List Int) (i : Int) : i ≤ l.foldl max i := by
  induction l generalizing i with
  | nil => simp
  | cons x xs ih =>
    rw [List.foldl_cons]
    exact le_trans (le_max_left i x) (ih (max i x))

theorem deleteScan_spec (kube : KubeClient) (list : List ChildResource) :
    ∀ (hp0 : Int) (del0 : List ChildResource),
    (∀ res ∈ list, (priorityOf res).isSome) →
    (∀ res ∈ list, kube.get res.nn ≠ GetOutcome.failure) →
    deleteScan kube list hp0 del0 =
      Except.ok ((if scanLevel kube list hp0 = hp0 then del0 else []) ++
        levelBatch kube list (scanLevel kube list hp0)) := by
  induction list with
  | nil =>
    intro hp0 del0 _ _
    simp [deleteScan, scanLevel, levelBatch, existingPriorities]
  | cons res rest ih =>
    intro hp0 del0 hparse hget
    obtain ⟨p, hpeq⟩ := Option.isSome_iff_exists.mp (hparse res (List.mem_cons_self res rest))
    have hgr : kube.get res.nn ≠ GetOutcome.failure := hget res (List.mem_cons_self res rest)
    have hparse' : ∀ r ∈ rest, (priorityOf r).isSome :=
      fun r hr => hparse r (List.mem_cons_of_mem res hr)
    have hget' : ∀ r ∈ rest, kube.get r.nn ≠ GetOutcome.failure :=
      fun r hr => hget r (List.mem_cons_of_mem res hr)
    cases hkg : kube.get res.nn with
    | failure => exact absurd hkg hgr
    | notFound =>
      have hex : existingPriorities kube (res :: rest) = existingPriorities kube rest := by
        simp [existingPriorities, List.filterMap_cons, hpeq, hkg]
      have hsl : scanLevel kube (res :: rest) hp0 = scanLevel kube rest hp0 := by
        simp [scanLevel, hex]
      have hlb : levelBatch kube (res :: rest) (scanLevel kube rest hp0) =
          levelBatch kube rest (scanLevel kube rest hp0) := by
        simp [levelBatch, hex]
      simp only [deleteScan, hpeq, hkg]
      rw [ih hp0 del0 hparse' hget', hsl, hlb]
    | found cur =>
      have hex : existingPriorities kube (res :: rest) =
          (p, cur) :: existingPriorities kube rest := by
        simp [existingPriorities, List.filterMap_cons, hpeq, hkg]
      have hsl : scanLevel kube (res :: rest) hp0 = scanLevel kube rest (max hp0 p) := by
        simp [scanLevel, hex]
      have hlb : ∀ hp, levelBatch kube (res :: rest) hp =
          if p = hp then cur :: levelBatch kube rest hp else levelBatch kube rest hp := by
        intro hp
        by_cases hph : p = hp <;> simp [levelBatch, hex, List.filter_cons, hph]
      simp only [deleteScan, hpeq, hkg]
      by_cases hlt : hp0 < p
      · rw [if_pos hlt, ih p [cur] hparse' hget']
        have hmax : max hp0 p = p := max_eq_right hlt.le
        have hple : p ≤ scanLevel kube rest p := le_foldl_max _ p
        have hne : scanLevel kube rest p ≠ hp0 := by
          intro hcontra
          rw [hcontra] at hple
          exact absurd hlt (not_lt.mpr hple)
        rw [hsl, hmax, if_neg hne, hlb]
        by_cases hL : p = scanLevel kube rest p
        · rw [if_pos hL.symm, if_pos hL]
          simp
        · rw [if_neg (Ne.symm hL), if_neg hL]
      · rw [if_neg hlt]
        by_cases heq : p = hp0
        · subst heq
          rw [if_pos rfl, ih p (del0 ++ [cur]) hparse' hget']
          have hmax : max p p = p := max_self p
          rw [hsl, hmax, hlb]
          by_cases hL : scanLevel kube rest p = p
          · rw [if_pos hL, if_pos hL, if_pos hL.symm]
            simp
          · rw [if_neg hL, if_neg hL, if_neg (Ne.symm hL)]
        · rw [if_neg heq, ih hp0 del0 hparse' hget']
          have hple : p < hp0 := lt_of_le_of_ne (not_lt.mp hlt) heq
          have hmax : max hp0 p = hp0 := max_eq_left hple.le
          have hle : hp0 ≤ scanLevel kube rest hp0 := le_foldl_max _ hp0
          have hne : p ≠ scanLevel kube rest hp0 := by
            intro hcontra
            rw [hcontra] at hple
            exact absurd (lt_of_le_of_lt hle hple) (lt_irrefl hp0)
          rw [hsl, hmax, hlb, if_neg hne]

theorem deleteBatch_ok (kube : KubeClient) (cr : ParentResource) :
    ∀ (del : List ChildResource),
    (∀ res ∈ del, getControllerOf res = none ∨ isControlledBy res cr = true) →
    (∀ res ∈ del, kube.delete res.nn ≠ DelOutcome.failure) →
    deleteBatch kube cr del = (del.map ChildResource.nn, none) := by
  intro del
  induction del with
  | nil => intro _ _; rfl
  | cons res rest ih =>
    intro hctrl hdel
    have h1 := hctrl res (List.mem_cons_self res rest)
    have h2 := hdel res (List.mem_cons_self res rest)
    have hguard : ((getControllerOf res).isSome && !(isControlledBy res cr)) = false := by
      cases h1 with
      | inl h => simp [h]
      | inr h => simp [h]
    have hrec := ih (fun r hr => hctrl r (List.mem_cons_of_mem res hr))
      (fun r hr => hdel r (List.mem_cons_of_mem res hr))
    cases hd : kube.delete res.nn with
    | failure => exact absurd hd h2
    | ok => simp [deleteBatch, deleteIfControllable, hguard, hd, hrec]
    | notFound => simp [deleteBatch, deleteIfControllable, hguard, hd, hrec]

/-- Claim C1: for every parent and every child list whose deletion-priority
values all parse as integers (absent defaults to 0) and whose re-fetches do
not fail, `APIOrderedDeleter.Delete` returns exactly the still-existing
children whose priority equals the maximum priority among still-existing
children, and — when the controllability guard and the delete calls go
through — deletes all of them together in the same pass (one delete call per
batch member, ties included), not just the first match. -/
theorem claim_C1 (d : APIOrderedDeleter) (cr : ParentResource) (list : List ChildResource)
    (hparse : ∀ res ∈ list, (priorityOf res).isSome)
    (hget : ∀ res ∈ list, d.kube.get res.nn ≠ GetOutcome.failure)
    (hctrl : ∀ res ∈ maxPriorityBatch d.kube list,
      getControllerOf res = none ∨ isControlledBy res cr = true)
    (hdel : ∀ res ∈ maxPriorityBatch d.kube list, d.kube.delete res.nn ≠ DelOutcome.failure) :
    d.Delete cr list =
      ((maxPriorityBatch d.kube list).map ChildResource.nn,
        Except.ok (maxPriorityBatch d.kube list)) := by
  have hscan : deleteScan d.kube list minInt64 [] =
      Except.ok (maxPriorityBatch d.kube list) := by
    rw [deleteScan_spec d.kube list minInt64 [] hparse hget, maxPriorityBatch_eq_levelBatch]
    simp
  simp [APIOrderedDeleter.Delete, hscan,
    deleteBatch_ok d.kube cr (maxPriorityBatch d.kube list) hctrl hdel]

/-- Claim C1 witness: on the concrete store `exKube` and list `exList`
(priorities 99, 49, 99-but-absent, default 0, -1 and a tie 99) the batch is
the two still-existing priority-99 children, both deleted in one pass. -/
theorem claim_C1_witness :
    APIOrderedDeleter.Delete ⟨exKube⟩ exParent exList =
      ((maxPriorityBatch exKube exList).map ChildResource.nn,
        Except.ok (maxPriorityBatch exKube exList)) ∧
    maxPriorityBatch exKube exList = [exChild "a" [], exChild "e" []] :=
  ⟨claim_C1 ⟨exKube⟩ exParent exList (by decide) (by decide) (by decide) (by decide),
   by decide⟩

theorem deleteScan_drop (kube : KubeClient) (res : ChildResource)
    (hres : (priorityOf res).isSome) (hnf : kube.get res.nn = GetOutcome.notFound) :
    ∀ (l1 l2 : List ChildResource) (hp : Int) (del : List ChildResource),
    deleteScan kube (l1 ++ res :: l2) hp del = deleteScan kube (l1 ++ l2) hp del := by
  intro l1
  induction l1 with
  | nil =>
    intro l2 hp del
    obtain ⟨p, hpeq⟩ := Option.isSome_iff_exists.mp hres
    simp [deleteScan, hpeq, hnf]
  | cons a l1 ih =>
    intro l2 hp del
    simp only [List.cons_append, deleteScan]
    cases hpa : priorityOf a with
    | none => rfl
    | some p =>
      cases hga : kube.get a.nn with
      | failure => rfl
      | notFound => exact ih l2 hp del
      | found cur =>
        by_cases h1 : hp < p
        · simp only [if_pos h1]
          exact ih l2 p [cur]
        · simp only [if_neg h1]
          by_cases h2 : p = hp
          · simp only [if_pos h2]
            exact ih l2 hp (del ++ [cur])
          · simp only [if_neg h2]
            exact ih l2 hp del

theorem deleteScan_allNotFound (kube : KubeClient) (list : List ChildResource)
    (hparse : ∀ res ∈ list, (priorityOf res).isSome)
    (hnf : ∀ res ∈ list, kube.get res.nn = GetOutcome.notFound) :
    ∀ (hp : Int) (del : List ChildResource),
    deleteScan kube list hp del = Except.ok del := by
  induction list with
  | nil => intro hp del; rfl
  | cons res rest ih =>
    intro hp del
    obtain ⟨p, hpeq⟩ := Option.isSome_iff_exists.mp (hparse res (List.mem_cons_self res rest))
    simp only [deleteScan, hpeq, hnf res (List.mem_cons_self res rest)]
    exact ih (fun r hr => hparse r (List.mem_cons_of_mem res hr))
      (fun r hr => hnf r (List.mem_cons_of_mem res hr)) hp del

/-- Claim C7: a child whose re-fetch reports not-found is excluded from the
maximum-priority computation and from the returned batch — removing it from
the input leaves `Delete` unchanged, so its absence never causes an error —
and when every child is already absent `Delete` returns an empty list and no
error (and issues no delete call). -/
theorem claim_C7 :
    (∀ (d : APIOrderedDeleter) (cr : ParentResource) (l1 : List ChildResource)
      (res : ChildResource) (l2 : List ChildResource),
      (priorityOf res).isSome → d.kube.get res.nn = GetOutcome.notFound →
      d.Delete cr (l1 ++ res :: l2) = d.Delete cr (l1 ++ l2)) ∧
    (∀ (d : APIOrderedDeleter) (cr : ParentResource) (list : List ChildResource),
      (∀ res ∈ list, (priorityOf res).isSome) →
      (∀ res ∈ list, d.kube.get res.nn = GetOutcome.notFound) →
      d.Delete cr list = ([], Except.ok [])) := by
  constructor
  · intro d cr l1 res l2 hres hnf
    unfold APIOrderedDeleter.Delete
    rw [deleteScan_drop d.kube res hres hnf l1 l2 minInt64 []]
  · intro d cr list hparse hnf
    unfold APIOrderedDeleter.Delete
    rw [deleteScan_allNotFound d.kube list hparse hnf minInt64 []]
    rfl

/-- Claim C7 witness: dropping the absent child `gone` from a concrete list
does not change the result, and a list of only absent children yields an
empty batch without error. -/
theorem claim_C7_witness :
    APIOrderedDeleter.Delete ⟨exKube⟩ exParent
        ([exChild "a" []] ++ exChild "gone" [] :: [exChild "b" []]) =
      APIOrderedDeleter.Delete ⟨exKube⟩ exParent ([exChild "a" []] ++ [exChild "b" []]) ∧
    APIOrderedDeleter.Delete ⟨exKube⟩ exParent [exChild "gone" []] =
      ([], Except.ok []) :=
  ⟨claim_C7.1 ⟨exKube⟩ exParent [exChild "a" []] (exChild "gone" []) [exChild "b" []]
      (by decide) (by decide),
   claim_C7.2 ⟨exKube⟩ exParent [exChild "gone" []] (by decide) (by decide)⟩

theorem deleteIfControllable_err (kube : KubeClient) (obj : ChildResource)
    (cr : ParentResource) (e : DeleteErr)
    (h : (deleteIfControllable kube obj cr).snd = some e) :
    e = DeleteErr.notController ∨ e = DeleteErr.deleteChildResource := by
  unfold deleteIfControllable at h
  by_cases hg : ((getControllerOf obj).isSome && !(isControlledBy obj cr)) = true
  · rw [if_pos hg] at h
    simp at h
    exact Or.inl h.symm
  · rw [if_neg hg] at h
    cases hd : kube.delete obj.nn with
    | failure =>
      rw [hd] at h
      simp at h
      exact Or.inr h.symm
    | ok =>
      rw [hd] at h
      simp at h
    | notFound =>
      rw [hd] at h
      simp at h

theorem deleteBatch_err_kind (kube : KubeClient) (cr : ParentResource) :
    ∀ (del : List ChildResource) (e : DeleteErr),
    (deleteBatch kube cr del).snd = some e →
    e = DeleteErr.notController ∨ e = DeleteErr.deleteChildResource := by
  intro del
  induction del with
  | nil => intro e h; simp [deleteBatch] at h
  | cons res rest ih =>
    intro e h
    rcases hic : deleteIfControllable kube res cr with ⟨issued, oerr⟩
    cases oerr with
    | some e2 =>
      have he2 : e2 = DeleteErr.notController ∨ e2 = DeleteErr.deleteChildResource :=
        deleteIfControllable_err kube res cr e2 (by rw [hic])
      simp only [deleteBatch, hic] at h
      simp at h
      rw [← h]
      exact he2
    | none =>
      simp only [deleteBatch, hic] at h
      exact ih e h

/-- Claim C9: when `Delete` fails with an unparsable priority or a failed
non-not-found re-fetch — errors that only the scan loop produces — it has
issued no delete call, leaving the store unchanged by that pass (and, as
the result type shows, an error always comes with a nil child list). -/
theorem claim_C9 (d : APIOrderedDeleter) (cr : ParentResource) (list : List ChildResource)
    (h : (d.Delete cr list).snd = Except.error DeleteErr.priorityToInt ∨
      (d.Delete cr list).snd = Except.error DeleteErr.getChildResource) :
    (d.Delete cr list).fst = [] := by
  cases hscan : deleteScan d.kube list minInt64 [] with
  | error e => simp [APIOrderedDeleter.Delete, hscan]
  | ok del =>
    rcases hb : deleteBatch d.kube cr del with ⟨calls, oerr⟩
    cases oerr with
    | none => simp [APIOrderedDeleter.Delete, hscan, hb] at h
    | some e =>
      have hkind := deleteBatch_err_kind d.kube cr del e (by rw [hb])
      simp [APIOrderedDeleter.Delete, hscan, hb] at h
      rcases hkind with h1 | h1 <;> rcases h with h2 | h2 <;> simp_all

/-- Claim C9 witness: a single child with the unparsable priority `ola`
makes `Delete` fail having issued no delete call. -/
theorem claim_C9_witness :
    (APIOrderedDeleter.Delete ⟨exKube⟩ exParent
      [exChild "bp" [(DeletionPriorityAnnotationKey, "ola")]]).fst = [] :=
  claim_C9 ⟨exKube⟩ exParent [exChild "bp" [(DeletionPriorityAnnotationKey, "ola")]]
    (Or.inl rfl)

/-- Claim C6: a child selected for deletion that is controlled by an owner
other than the given parent makes `deleteIfControllable` fail with the
`not controller` error and issue no delete call; conversely a delete call
is only issued when the child has no controller at all or its controller is
the given parent. -/
theorem claim_C6 :
    (∀ (kube : KubeClient) (obj : ChildResource) (cr : ParentResource) (ref : OwnerRef),
      getControllerOf obj = some ref → ref.uid ≠ cr.uid →
      deleteIfControllable kube obj cr = (false, some DeleteErr.notController)) ∧
    (∀ (kube : KubeClient) (obj : ChildResource) (cr : ParentResource),
      (deleteIfControllable kube obj cr).fst = true →
      getControllerOf obj = none ∨ isControlledBy obj cr = true) := by
  constructor
  · intro kube obj cr ref href hne
    have hic : isControlledBy obj cr = false := by
      simp [isControlledBy, href, hne]
    simp [deleteIfControllable, href, hic]
  · intro kube obj cr h
    by_cases hg : ((getControllerOf obj).isSome && !(isControlledBy obj cr)) = true
    · simp [deleteIfControllable, hg] at h
    · by_cases ho : (getControllerOf obj).isSome = true
      · simp at hg
        exact Or.inr (hg ho)
      · exact Or.inl (Option.not_isSome_iff_eq_none.mp ho)

/-- Claim C6 witness: a child controlled by UID `uid-other` is rejected with
the `not controller` error and no delete call when the parent UID is
`uid-parent`. -/
theorem claim_C6_witness :
    deleteIfControllable exKube
        ⟨exGVK, "c", "default", [], [],
          [⟨"example.org/v1", "Parent", "other", "uid-other", true, true⟩]⟩
        exParent = (false, some DeleteErr.notController) :=
  claim_C6.1 exKube
    ⟨exGVK, "c", "default", [], [],
      [⟨"example.org/v1", "Parent", "other", "uid-other", true, true⟩]⟩
    exParent ⟨"example.org/v1", "Parent", "other", "uid-other", true, true⟩
    (by decide) (by decide)

/-- Claim C8: a child with no controller owner-reference is deleted without
a `not controller` error, regardless of which parent is passed — the guard
never fires for an unowned child. -/
theorem claim_C8 (kube : KubeClient) (obj : ChildResource) (cr : ParentResource)
    (h : getControllerOf obj = none) :
    (deleteIfControllable kube obj cr).fst = true ∧
    (deleteIfControllable kube obj cr).snd ≠ some DeleteErr.notController := by
  have hguard : ((getControllerOf obj).isSome && !(isControlledBy obj cr)) = false := by
    simp [h]
  unfold deleteIfControllable
  rw [if_neg (by simp [hguard])]
  cases kube.delete obj.nn <;> simp

/-- Claim C8 witness: an unowned concrete child passes the guard and is
deleted without a `not controller` error. -/
theorem claim_C8_witness :
    (deleteIfControllable exKube (exChild "c" []) exParent).fst = true ∧
    (deleteIfControllable exKube (exChild "c" []) exParent).snd ≠
      some DeleteErr.notController :=
  claim_C8 exKube (exChild "c" []) exParent (by decide)

/-! ### Lemmas about SetConditions -/

theorem setConditionLoop_spec (newC : Condition) (l : List Condition) (ex : Bool) :
    setConditionLoop newC l ex =
      (l.map (fun c =>
        if c.ctype = newC.ctype ∧ conditionEqual c newC = false then newC else c),
       ex || l.any (fun c => c.ctype == newC.ctype)) := by
  induction l generalizing ex with
  | nil => simp [setConditionLoop]
  | cons c rest ih =>
    by_cases h1 : c.ctype = newC.ctype
    · have hb : (c.ctype == newC.ctype) = true := by
        rw [beq_iff_eq]; exact h1
      by_cases h2 : conditionEqual c newC = true
      · simp [setConditionLoop, h1, h2, hb, ih, Bool.or_assoc]
      · simp only [Bool.not_eq_true] at h2
        simp [setConditionLoop, h1, h2, hb, ih, Bool.or_assoc]
    · have hb : (c.ctype == newC.ctype) = false := by
        rw [beq_eq_false_iff_ne]; exact h1
      simp [setConditionLoop, h1, hb, ih]

theorem setCondition_eq (conds : List Condition) (newC : Condition) :
    setCondition conds newC =
      if conds.any (fun c => c.ctype == newC.ctype) then
        conds.map (fun c =>
          if c.ctype = newC.ctype ∧ conditionEqual c newC = false then newC else c)
      else conds ++ [newC] := by
  unfold setCondition
  rw [setConditionLoop_spec]
  cases hany : conds.any (fun c => c.ctype == newC.ctype) with
  | true => simp
  | false =>
    simp only [Bool.false_or]
    have hmap : conds.map (fun c =>
        if c.ctype = newC.ctype ∧ conditionEqual c newC = false then newC else c) = conds := by
      have hfun : ∀ c ∈ conds,
          (if c.ctype = newC.ctype ∧ conditionEqual c newC = false then newC else c) = c := by
        intro c hc
        have hb : (c.ctype == newC.ctype) = false := by
          simpa using (List.any_eq_false.mp hany) c hc
        rw [if_neg]
        intro hcon
        rw [beq_eq_false_iff_ne] at hb
        exact absurd hcon.1 hb
      calc conds.map (fun c =>
            if c.ctype = newC.ctype ∧ conditionEqual c newC = false then newC else c)
          = conds.map id := List.map_congr_left hfun
        _ = conds := List.map_id conds
    simp [hmap]

theorem countP_le_one_unique {α : Type} {p : α → Bool} {l : List α}
    (h : l.countP p ≤ 1) {a b : α} (ha : a ∈ l) (hb : b ∈ l)
    (hpa : p a = true) (hpb : p b = true) : a = b := by
  classical
  by_contra hne
  have ha' : a ∈ l.filter p := List.mem_filter.mpr ⟨ha, hpa⟩
  have hb' : b ∈ l.filter p := List.mem_filter.mpr ⟨hb, hpb⟩
  have hbe : b ∈ (l.filter p).erase a := (List.mem_erase_of_ne (Ne.symm hne)).mpr hb'
  have hlen : (l.filter p).length ≤ 1 := by
    rw [← List.countP_eq_length_filter]
    exact h
  have hpos : 0 < ((l.filter p).erase a).length := List.length_pos.mpr (by
    intro hemp
    rw [hemp] at hbe
    exact absurd hbe (List.not_mem_nil b))
  have hera : ((l.filter p).erase a).length = (l.filter p).length - 1 :=
    List.length_erase_of_mem ha'
  omega

/-- Claim C10, confirmed as a frame property of `setCondition`: entries of a
different type are left exactly in place (same index, same value); an entry
of the supplied condition's type is replaced in place by the new condition
unless it already equals it modulo timestamp, in which case it stays
untouched; the new condition is appended at the end precisely when no entry
of its type exists; and nothing else changes length or order. -/
theorem claim_C10 (conds : List Condition) (newC : Condition) :
    ((setCondition conds newC).length =
      if conds.any (fun c => c.ctype == newC.ctype) then conds.length
      else conds.length + 1) ∧
    (conds.any (fun c => c.ctype == newC.ctype) = false →
      setCondition conds newC = conds ++ [newC]) ∧
    (∀ i, (h : i < conds.length) → conds[i].ctype ≠ newC.ctype →
      (setCondition conds newC)[i]? = some conds[i]) ∧
    (∀ i, (h : i < conds.length) → conds[i].ctype = newC.ctype →
      (setCondition conds newC)[i]? =
        some (if conditionEqual conds[i] newC then conds[i] else newC)) := by
  refine ⟨?_, ?_, ?_, ?_⟩
  · by_cases hany : conds.any (fun c => c.ctype == newC.ctype) = true
    · rw [setCondition_eq, if_pos hany, if_pos hany, List.length_map]
    · rw [setCondition_eq, if_neg hany, if_neg hany, List.length_append]
      rfl
  · intro hany0
    have hany : ¬ conds.any (fun c => c.ctype == newC.ctype) = true := by
      rw [hany0]; exact Bool.false_ne_true
    rw [setCondition_eq, if_neg hany]
  · intro i h hdiff
    by_cases hany : conds.any (fun c => c.ctype == newC.ctype) = true
    · have hlen : i < (conds.map (fun c =>
          if c.ctype = newC.ctype ∧ conditionEqual c newC = false then newC
          else c)).length := by
        simpa using h
      rw [setCondition_eq, if_pos hany, List.getElem?_eq_getElem hlen, List.getElem_map]
      rw [if_neg]
      intro hcon
      exact absurd hcon.1 hdiff
    · rw [setCondition_eq, if_neg hany, List.getElem?_append_left h,
        List.getElem?_eq_getElem h]
  · intro i h hsame
    have hany : conds.any (fun c => c.ctype == newC.ctype) = true :=
      List.any_eq_true.mpr ⟨conds[i], List.getElem_mem h, by rw [beq_iff_eq]; exact hsame⟩
    have hlen : i < (conds.map (fun c =>
        if c.ctype = newC.ctype ∧ conditionEqual c newC = false then newC
        else c)).length := by
      simpa using h
    rw [setCondition_eq, if_pos hany, List.getElem?_eq_getElem hlen, List.getElem_map]
    by_cases heq : conditionEqual conds[i] newC = true
    · have hno : ¬ (conds[i].ctype = newC.ctype ∧ conditionEqual conds[i] newC = false) := by
        intro hcon
        rw [heq] at hcon
        exact absurd hcon.2 (by decide)
      rw [if_neg hno, if_pos heq]
    · have hf : conditionEqual conds[i] newC = false := by
        simpa using heq
      rw [if_pos ⟨hsame, hf⟩, if_neg heq]

/-- Claim C10 witness: setting a `Synced` condition on a list holding only a
`Ready` condition appends it at the end and leaves index 0 untouched. -/
theorem claim_C10_witness :
    setCondition [⟨"Ready", "True", "A", "", 0⟩] ⟨"Synced", "True", "B", "m", 1⟩ =
      [⟨"Ready", "True", "A", "", 0⟩] ++ [⟨"Synced", "True", "B", "m", 1⟩] ∧
    (setCondition [⟨"Ready", "True", "A", "", 0⟩] ⟨"Synced", "True", "B", "m", 1⟩)[0]? =
      some ⟨"Ready", "True", "A", "", 0⟩ :=
  ⟨(claim_C10 [⟨"Ready", "True", "A", "", 0⟩] ⟨"Synced", "True", "B", "m", 1⟩).2.1
      (by decide),
   (claim_C10 [⟨"Ready", "True", "A", "", 0⟩] ⟨"Synced", "True", "B", "m", 1⟩).2.2.1 0
      (by decide) (by decide)⟩

/-- Claim C4 counterexample: on a stored list that already holds two
conditions of type `Synced` — one identical (modulo timestamp) to the
supplied condition — `setCondition` leaves two conditions of that type in
the status and changes the stored list, so the claim fails as stated for
arbitrary parent statuses. -/
theorem claim_C4_counterexample :
    ((setCondition [⟨"Synced", "True", "A", "", 3⟩, ⟨"Synced", "False", "B", "", 4⟩]
        ⟨"Synced", "True", "A", "", 9⟩).countP (fun c => c.ctype == "Synced") = 2) ∧
    setCondition [⟨"Synced", "True", "A", "", 3⟩, ⟨"Synced", "False", "B", "", 4⟩]
        ⟨"Synced", "True", "A", "", 9⟩ ≠
      [⟨"Synced", "True", "A", "", 3⟩, ⟨"Synced", "False", "B", "", 4⟩] := by
  decide

/-- Claim C4, amended: for every parent status whose stored condition list
contains at most one condition of the supplied condition's type (the
data-model invariant), `setCondition` keeps at most one condition of that
type, and when a condition identical to the supplied one modulo
`lastTransitionTime` is already stored the call leaves the stored list
completely unchanged — no duplicate is appended and the stored entry keeps
its timestamp. -/
theorem claim_C4 (conds : List Condition) (newC : Condition)
    (hinv : conds.countP (fun c => c.ctype == newC.ctype) ≤ 1) :
    (setCondition conds newC).countP (fun c => c.ctype == newC.ctype) ≤ 1 ∧
    (∀ c0 ∈ conds, conditionEqual c0 newC = true → setCondition conds newC = conds) := by
  constructor
  · by_cases hany : conds.any (fun c => c.ctype == newC.ctype) = true
    · rw [setCondition_eq, if_pos hany]
      have hmapP : (conds.map (fun c =>
          if c.ctype = newC.ctype ∧ conditionEqual c newC = false then newC
          else c)).countP (fun c => c.ctype == newC.ctype) =
          conds.countP (fun c => c.ctype == newC.ctype) := by
        rw [List.countP_map]
        apply List.countP_congr
        intro c _
        by_cases hcc : c.ctype = newC.ctype ∧ conditionEqual c newC = false
        · simp [Function.comp, hcc, hcc.1]
        · simp [Function.comp, hcc]
      rw [hmapP]
      exact hinv
    · rw [setCondition_eq, if_neg hany, List.countP_append]
      have hanyf : conds.any (fun c => c.ctype == newC.ctype) = false := by
        simpa using hany
      have hzero : conds.countP (fun c => c.ctype == newC.ctype) = 0 := by
        rw [List.countP_eq_zero]
        intro c hc
        have hf : (c.ctype == newC.ctype) = false := by
          simpa using (List.any_eq_false.mp hanyf) c hc
        simp [hf]
      rw [hzero]
      simp [List.countP_cons]
  · intro c0 hc0 heq
    have hpc0 : (c0.ctype == newC.ctype) = true := by
      unfold conditionEqual at heq
      have h1 := (Bool.and_eq_true _ _).mp heq
      have h2 := (Bool.and_eq_true _ _).mp h1.1
      have h3 := (Bool.and_eq_true _ _).mp h2.1
      exact h3.1
    have hany : conds.any (fun c => c.ctype == newC.ctype) = true :=
      List.any_eq_true.mpr ⟨c0, hc0, hpc0⟩
    rw [setCondition_eq, if_pos hany]
    have hfun : ∀ c ∈ conds,
        (if c.ctype = newC.ctype ∧ conditionEqual c newC = false then newC else c) = c := by
      intro c hc
      rw [if_neg]
      intro hcon
      have hpc : (c.ctype == newC.ctype) = true := by
        rw [beq_iff_eq]; exact hcon.1
      have hcc0 : c = c0 := countP_le_one_unique hinv hc hc0 hpc hpc0
      rw [hcc0, heq] at hcon
      exact absurd hcon.2 (by decide)
    calc conds.map (fun c =>
          if c.ctype = newC.ctype ∧ conditionEqual c newC = false then newC else c)
        = conds.map id := List.map_congr_left hfun
      _ = conds := List.map_id conds

/-- Claim C4 witness: with a single stored `Synced` condition identical
modulo timestamp to the supplied one, the amended claim gives at most one
`Synced` condition and an unchanged stored list (timestamp 3 kept). -/
theorem claim_C4_witness :
    (setCondition [⟨"Synced", "True", "A", "", 3⟩] ⟨"Synced", "True", "A", "", 9⟩).countP
        (fun c => c.ctype == "Synced") ≤ 1 ∧
    setCondition [⟨"Synced", "True", "A", "", 3⟩] ⟨"Synced", "True", "A", "", 9⟩ =
      [⟨"Synced", "True", "A", "", 3⟩] := by
  have h := claim_C4 [⟨"Synced", "True", "A", "", 3⟩] ⟨"Synced", "True", "A", "", 9⟩
    (by decide)
  exact ⟨h.1, h.2 ⟨"Synced", "True", "A", "", 3⟩ (by decide) (by decide)⟩

/-! ### Lemmas about the reconciler -/

theorem applyAll_ok (f : ChildResource → Option String) :
    ∀ (l : List ChildResource), (∀ c ∈ l, f c = none) → applyAll f l = (l, none) := by
  intro l
  induction l with
  | nil => intro _; rfl
  | cons o rest ih =>
    intro h
    have ho := h o (List.mem_cons_self o rest)
    have hrec := ih (fun c hc => h c (List.mem_cons_of_mem o hc))
    simp [applyAll, ho, hrec]

theorem applyAll_fail (f : ChildResource → Option String) (o : ChildResource) (e : String) :
    ∀ (pre post : List ChildResource), (∀ c ∈ pre, f c = none) → f o = some e →
    applyAll f (pre ++ o :: post) = (pre ++ [o], some (o, e)) := by
  intro pre
  induction pre with
  | nil =>
    intro post _ ho
    simp [applyAll, ho]
  | cons a pre ih =>
    intro post hpre ho
    have ha := hpre a (List.mem_cons_self a pre)
    have hrec := ih post (fun c hc => hpre c (List.mem_cons_of_mem a hc)) ho
    simp [applyAll, ha, hrec]

/-- Claim C2: on a deleting parent with a successful deleter pass, a
non-empty set of children still being deleted yields a Success condition
with message `waiting for deletion of child resources` and a requeue after
`tinyWait`; an empty set with successful finalizer removal yields the
terminal result — no requeue, no error. -/
theorem claim_C2 (r : Reconciler) (env : ReconcilerEnv) (cr : ParentResource)
    (rendered patched deleting : List ChildResource)
    (hget : env.getParent = GetParentOutcome.ok cr)
    (hdel : cr.deletionTimestamp.isSome = true)
    (hrun : env.run cr = Except.ok rendered)
    (hpatch : env.patchChain cr rendered = Except.ok patched)
    (hdeleter : env.deleter patched = Except.ok deleting) :
    (deleting ≠ [] →
      (r.Reconcile env).condSet =
        some ((reconcileSuccess env.now).withMessage msgWaitingForDeletion) ∧
      (r.Reconcile env).result = ⟨false, tinyWait⟩) ∧
    (deleting = [] → env.removeFinalizer = RemoveFinalizerOutcome.ok →
      (r.Reconcile env).result = ⟨false, 0⟩ ∧ (r.Reconcile env).retErr = none) := by
  constructor
  · intro hne
    have hlen : deleting.length > 0 := List.length_pos.mpr hne
    simp [Reconciler.Reconcile, hget, hrun, hpatch, hdel, hdeleter, hlen]
  · intro hnil hfin
    subst hnil
    simp [Reconciler.Reconcile, hget, hrun, hpatch, hdel, hdeleter, hfin]

/-- Claim C2 witness: with one child still being deleted the reconciler
waits with the deletion message after `tinyWait`; with none left and a
successful finalizer removal it ends terminally without error. -/
theorem claim_C2_witness :
    ((Reconciler.Reconcile ⟨defaultShortWait, defaultLongWait⟩
        (exEnvDeleting [exChild "a" []])).condSet =
      some ((reconcileSuccess 7).withMessage msgWaitingForDeletion) ∧
      (Reconciler.Reconcile ⟨defaultShortWait, defaultLongWait⟩
        (exEnvDeleting [exChild "a" []])).result = ⟨false, tinyWait⟩) ∧
    ((Reconciler.Reconcile ⟨defaultShortWait, defaultLongWait⟩
        (exEnvDeleting [])).result = ⟨false, 0⟩ ∧
      (Reconciler.Reconcile ⟨defaultShortWait, defaultLongWait⟩
        (exEnvDeleting [])).retErr = none) :=
  ⟨(claim_C2 ⟨defaultShortWait, defaultLongWait⟩ (exEnvDeleting [exChild "a" []])
      exParentDeleting [] [] [exChild "a" []] rfl rfl rfl rfl rfl).1 (by decide),
   (claim_C2 ⟨defaultShortWait, defaultLongWait⟩ (exEnvDeleting [])
      exParentDeleting [] [] [] rfl rfl rfl rfl rfl).2 rfl rfl⟩

/-- Claim C3: on a non-deleting parent that reaches the apply stage,
children are applied in list order; the first apply failure stops the loop
— later children are not attempted — and sets an Error condition naming the
failing child's name, namespace and kind, requeueing after `shortWait`;
when every apply succeeds the reconciler sets a Success condition and
requeues after `longWait`. -/
theorem claim_C3 (r : Reconciler) (env : ReconcilerEnv) (cr : ParentResource)
    (rendered cs : List ChildResource)
    (hget : env.getParent = GetParentOutcome.ok cr)
    (hnotdel : cr.deletionTimestamp = none)
    (hrun : env.run cr = Except.ok rendered)
    (hpatch : env.patchChain cr rendered = Except.ok cs)
    (hfin : env.addFinalizer = none) :
    (∀ (pre : List ChildResource) (o : ChildResource) (e : String)
      (post : List ChildResource), cs = pre ++ o :: post →
      (∀ c ∈ pre, env.applyChild c = none) → env.applyChild o = some e →
      (r.Reconcile env).applied = pre ++ [o] ∧
      (r.Reconcile env).condSet =
        some (reconcileError env.now (applyFailMessage o e)) ∧
      (r.Reconcile env).result = ⟨false, r.shortWait⟩) ∧
    ((∀ c ∈ cs, env.applyChild c = none) →
      (r.Reconcile env).applied = cs ∧
      (r.Reconcile env).condSet = some (reconcileSuccess env.now) ∧
      (r.Reconcile env).result = ⟨false, r.longWait⟩) := by
  constructor
  · intro pre o e post hcs hpre ho
    subst hcs
    have happ := applyAll_fail env.applyChild o e pre post hpre ho
    simp [Reconciler.Reconcile, hget, hrun, hpatch, hnotdel, hfin, happ]
  · intro hall
    have happ := applyAll_ok env.applyChild cs hall
    simp [Reconciler.Reconcile, hget, hrun, hpatch, hnotdel, hfin, happ]

/-- Claim C3 witness: with children `ok1`, `bad`, `later` and an apply that
fails on `bad`, only `ok1` and `bad` are attempted and the Error condition
names `bad`; with children `x`, `y` and no failure both are applied and the
reconciler succeeds with `longWait`. -/
theorem claim_C3_witness :
    ((Reconciler.Reconcile ⟨defaultShortWait, defaultLongWait⟩ exEnvApplyFail).applied =
        [exChild "ok1" []] ++ [exChild "bad" []] ∧
      (Reconciler.Reconcile ⟨defaultShortWait, defaultLongWait⟩ exEnvApplyFail).condSet =
        some (reconcileError 7 (applyFailMessage (exChild "bad" []) "boom")) ∧
      (Reconciler.Reconcile ⟨defaultShortWait, defaultLongWait⟩ exEnvApplyFail).result =
        ⟨false, defaultShortWait⟩) ∧
    ((Reconciler.Reconcile ⟨defaultShortWait, defaultLongWait⟩ exEnvApplyOk).applied =
        [exChild "x" [], exChild "y" []] ∧
      (Reconciler.Reconcile ⟨defaultShortWait, defaultLongWait⟩ exEnvApplyOk).condSet =
        some (reconcileSuccess 7) ∧
      (Reconciler.Reconcile ⟨defaultShortWait, defaultLongWait⟩ exEnvApplyOk).result =
        ⟨false, defaultLongWait⟩) :=
  ⟨(claim_C3 ⟨defaultShortWait, defaultLongWait⟩ exEnvApplyFail exParent []
      [exChild "ok1" [], exChild "bad" [], exChild "later" []] rfl rfl rfl rfl rfl).1
      [exChild "ok1" []] (exChild "bad" []) "boom" [exChild "later" []] rfl
      (by decide) (by decide),
   (claim_C3 ⟨defaultShortWait, defaultLongWait⟩ exEnvApplyOk exParent []
      [exChild "x" [], exChild "y" []] rfl rfl rfl rfl rfl).2 (by decide)⟩

/-- Claim C5, recording the divergence: the current
`OwnerReferenceAdder.Patch` of `pkg/templating/api.go` adds the controller
owner-reference to a provider-kind child as well — its loop has no provider
check, contradicting the struct's own doc comment ("adds owner reference
... to all resource.ChildResources except the Providers") — while the older
variant of the same patcher recognizes the child via `isProvider` and
leaves it untouched. -/
theorem claim_C5_theorem :
    legacyIsProvider
        ⟨⟨"crossplane.io", "v1alpha1", "Provider"⟩, "prov", "", [], [], []⟩ = true ∧
    OwnerReferenceAdder.Patch exParent
        [⟨⟨"crossplane.io", "v1alpha1", "Provider"⟩, "prov", "", [], [], []⟩] =
      [⟨⟨"crossplane.io", "v1alpha1", "Provider"⟩, "prov", "", [], [],
        [controllerRefTo exParent]⟩] ∧
    legacyOwnerReferenceAdderPatch exParent
        [⟨⟨"crossplane.io", "v1alpha1", "Provider"⟩, "prov", "", [], [], []⟩] =
      [⟨⟨"crossplane.io", "v1alpha1", "Provider"⟩, "prov", "", [], [], []⟩] := by
  refine ⟨by decide, ?_, by decide⟩
  decide

end TemplatingController
